import Mathlib

/-!
Verification of the mgit multi-account Git identity manager.

This file gives a shallow embedding, in Lean 4, of the core of the mgit
repository (account store, SSH config text-block engine, profile
orchestration, clone helper), translated from the Python sources in
`src/src/`, together with theorems settling the frozen claims about it.

Python-specific primitives (`str.replace`, `str.split`, the `in` substring
operator, `str.rstrip`, f-string rendering of `Optional` values,
`dict.get`) are modelled by executable Lean functions with the same
semantics; machine-level concerns (file system, subprocess calls) are
modelled by explicit state (the set of key file names present, the SSH
config text, the account list) threaded through the operations.
-/

namespace Mgit

/-! ### Python string primitives -/

/-- One structural step of Python's `str.split(sep)` over the character
list: `skip` counts separator characters still to be consumed after a
match, `acc` is the current piece (reversed).  Structural recursion so
that the kernel can evaluate it. -/
def splitGo (pat : List Char) : List Char → Nat → List Char → List (List Char)
  | [], _, acc => [acc.reverse]
  | _ :: rest, Nat.succ k, acc => splitGo pat rest k acc
  | c :: rest, 0, acc =>
    if pat ≠ [] ∧ pat.isPrefixOf (c :: rest) then
      acc.reverse :: splitGo pat rest (pat.length - 1) []
    else
      splitGo pat rest 0 (c :: acc)

/-- Python `s.split(sep)` on character lists (for nonempty `sep`):
the list of pieces between non-overlapping occurrences of `sep`,
scanned left to right. -/
def splitOnList (pat l : List Char) : List (List Char) := splitGo pat l 0 []

/-- Python `s.split(sep)` at the `String` level. -/
def pySplit (s sep : String) : List String :=
  (splitOnList sep.data s.data).map String.mk

/-- Python `s.replace(old, new)` for nonempty `old`: every
non-overlapping occurrence of `old`, scanned left to right, is replaced
by `new` (equivalently, `new.join(s.split(old))`). -/
def pyReplace (s old new : String) : String :=
  String.intercalate new ((splitOnList old.data s.data).map String.mk)

/-- Occurrence of `pat` as a contiguous sublist of `l`
(Python's `pat in l` on strings). -/
def containsList (pat : List Char) : List Char → Bool
  | [] => pat.isEmpty
  | c :: rest => pat.isPrefixOf (c :: rest) || containsList pat rest

/-- Python's substring test `sub in s`. -/
def strIn (sub s : String) : Bool := containsList sub.data s.data

/-- Python `s.rstrip("\n")`: drop every trailing newline character. -/
def pyRstripNl (s : String) : String :=
  String.mk ((s.data.reverse.dropWhile (fun c => c == '\n')).reverse)

/-- Rendering of a Python `Optional[str]` inside an f-string:
`None` prints as the four characters `None`. -/
def pyFStr : Option String → String
  | some s => s
  | none => "None"

/-- Python `dict.get(key, default)` over an association list whose values
are `Optional[str]`: the default is used only when the key is absent;
a key stored with value `None` returns `None`. -/
def dictGetD (d : List (String × Option String)) (k : String)
    (default : Option String) : Option String :=
  match d.lookup k with
  | some v => v
  | none => default

/-! ### Errors (Python exception classes raised by the core) -/

/-- The exceptions the embedded code can raise: Python `ValueError`
(the spec's ValidationError / DuplicateError), `KeyError` (NotFoundError)
and `FileNotFoundError`, with their messages. -/
inductive MgitError
  | valueError (msg : String)
  | keyError (key : String)
  | fileNotFoundError (msg : String)
deriving DecidableEq

/-! ### Validation helpers (`src/src/utils.py`) -/

/-- Character class `[a-zA-Z0-9._%+-]` of the email regex's local part. -/
def isEmailLocalChar (c : Char) : Bool :=
  c.isAlpha || c.isDigit || c == '.' || c == '_' || c == '%' || c == '+' || c == '-'

/-- Character class `[a-zA-Z0-9.-]` of the email regex's domain part. -/
def isEmailDomainChar (c : Char) : Bool :=
  c.isAlpha || c.isDigit || c == '.' || c == '-'

/-- `validate_email`: Python `re.match` of
`^[a-zA-Z0-9._%+-]+@[a-zA-Z0-9.-]+\.[a-zA-Z]\x7b2,\x7d$` against the
string.  A match needs a nonempty local part (up to the single `@`), a
nonempty domain part before the last dot, and a final all-letter segment
of length at least two.  `re`'s `$` also matches just before one
trailing newline, so such a newline is dropped first. -/
def validate_email (email : String) : Bool :=
  let s := if email.data.getLast? == some '\n' then email.data.dropLast else email.data
  match splitOnList ['@'] s with
  | [localPart, domain] =>
    (!localPart.isEmpty && localPart.all isEmailLocalChar)
      && (let tld := (domain.reverse.takeWhile (fun c => c != '.')).reverse
          let front := ((domain.reverse.dropWhile (fun c => c != '.')).drop 1).reverse
          domain.contains '.' && !front.isEmpty && front.all isEmailDomainChar
            && decide (2 ≤ tld.length) && tld.all Char.isAlpha)
  | _ => false

/-- `validate_account_name`: Python `re.match` of `^[a-zA-Z0-9_-]+$`
(again up to one trailing newline, which `$` tolerates). -/
def validate_account_name (name : String) : Bool :=
  let s := if name.data.getLast? == some '\n' then name.data.dropLast else name.data
  !s.isEmpty && s.all (fun c => c.isAlpha || c.isDigit || c == '_' || c == '-')

/-! ### Account data class (`src/src/account_manager.py`) -/

/-- The `Account` data class. -/
structure Account where
  name : String
  git_username : String
  git_email : String
  provider : String
  host_alias : String
  ssh_key_path : String
  signing_key : Option String := none
  custom_host : Option String := none
  is_default : Bool := false
deriving DecidableEq

/-- The value space of the dictionary produced by `Account.to_dict`:
strings, `None`, and booleans. -/
inductive Value
  | vstr (s : String)
  | vnone
  | vbool (b : Bool)
deriving DecidableEq

/-- How an `Optional[str]` field lands in the dictionary. -/
def optValue : Option String → Value
  | some s => .vstr s
  | none => .vnone

/-- `Account.to_dict`: the dictionary with the nine fields, in source
order. -/
def to_dict (a : Account) : List (String × Value) :=
  [("name", .vstr a.name), ("git_username", .vstr a.git_username),
   ("git_email", .vstr a.git_email), ("provider", .vstr a.provider),
   ("host_alias", .vstr a.host_alias), ("ssh_key_path", .vstr a.ssh_key_path),
   ("signing_key", optValue a.signing_key), ("custom_host", optValue a.custom_host),
   ("is_default", .vbool a.is_default)]

/-- The parameter names of `Account.__init__` (the keys `cls(**data)`
accepts). -/
def accountInitParams : List String :=
  ["name", "git_username", "git_email", "provider", "host_alias", "ssh_key_path",
   "signing_key", "custom_host", "is_default"]

/-- Exceptions of the persistence layer: a YAML parse error, Python
`AttributeError`, Python `TypeError`. -/
inductive PyExc
  | yamlParseError
  | attributeError
  | typeError
deriving DecidableEq

/-- Extraction of a required string-valued `__init__` argument. -/
def getStrField (d : List (String × Value)) (k : String) : Except PyExc String :=
  match d.lookup k with
  | some (.vstr s) => .ok s
  | _ => .error .typeError

/-- Extraction of an optional string-valued `__init__` argument
(default `None`). -/
def getOptField (d : List (String × Value)) (k : String) : Except PyExc (Option String) :=
  match d.lookup k with
  | some (.vstr s) => .ok (some s)
  | some .vnone => .ok none
  | none => .ok none
  | some _ => .error .typeError

/-- Extraction of the boolean `is_default` argument (default `False`). -/
def getBoolField (d : List (String × Value)) (k : String) : Except PyExc Bool :=
  match d.lookup k with
  | some (.vbool b) => .ok b
  | none => .ok false
  | some _ => .error .typeError

/-- `Account.from_dict`, i.e. `cls(**data)`: every key must name an
`__init__` parameter (otherwise Python raises `TypeError`), the six
required parameters must be present, the optional ones default. -/
def from_dict (d : List (String × Value)) : Except PyExc Account :=
  if !(d.all (fun kv => accountInitParams.contains kv.1)) then .error .typeError
  else do
    let name ← getStrField d "name"
    let git_username ← getStrField d "git_username"
    let git_email ← getStrField d "git_email"
    let provider ← getStrField d "provider"
    let host_alias ← getStrField d "host_alias"
    let ssh_key_path ← getStrField d "ssh_key_path"
    let signing_key ← getOptField d "signing_key"
    let custom_host ← getOptField d "custom_host"
    let is_default ← getBoolField d "is_default"
    pure ⟨name, git_username, git_email, provider, host_alias, ssh_key_path,
          signing_key, custom_host, is_default⟩

/-! ### AccountManager operations (`src/src/account_manager.py`)

The in-memory store `self.accounts` is a Python dict keyed by account
name; dicts preserve insertion order, so it is modelled as a list of
`Account` with pairwise-distinct names, new entries appended at the
end.  Persistence (`_save`) rewrites the whole file and has no effect
on the in-memory state, so it does not appear. -/

/-- `AccountManager.add_account`: validate name and email, reject
duplicates, force `is_default` on a first account, clear the old default
when the new record is default, append.  Returns the new account and the
new store. -/
def add_account (accounts : List Account)
    (name git_username git_email provider host_alias ssh_key_path : String)
    (signing_key custom_host : Option String) (is_default : Bool) :
    Except MgitError (Account × List Account) :=
  if !validate_account_name name then
    .error (.valueError ("Invalid account name '" ++ name ++
      "'. Use only alphanumerics, hyphens, and underscores."))
  else if !validate_email git_email then
    .error (.valueError ("Invalid email address: " ++ git_email))
  else if accounts.any (fun a => a.name == name) then
    .error (.valueError ("Account '" ++ name ++ "' already exists. Use a different name."))
  else
    let is_default := if accounts.isEmpty then true else is_default
    let accounts := if is_default then
        accounts.map (fun a => { a with is_default := false })
      else accounts
    let account : Account :=
      ⟨name, git_username, git_email, provider, host_alias, ssh_key_path,
       signing_key, custom_host, is_default⟩
    .ok (account, accounts ++ [account])

/-- `AccountManager.remove_account`. -/
def remove_account (accounts : List Account) (name : String) :
    Except MgitError (List Account) :=
  if !(accounts.any (fun a => a.name == name)) then .error (.keyError name)
  else .ok (accounts.filter (fun a => !(a.name == name)))

/-- `AccountManager.get_account`. -/
def get_account (accounts : List Account) (name : String) : Option Account :=
  accounts.find? (fun a => a.name == name)

/-- `AccountManager.get_default_account`: the first record flagged as
default, else the first record in iteration order, else `None`. -/
def get_default_account (accounts : List Account) : Option Account :=
  match accounts.find? (fun a => a.is_default) with
  | some a => some a
  | none => accounts.head?

/-- `AccountManager.set_default`: `KeyError` when the name is unknown,
else set the flag to `name == account.name` on every record. -/
def set_default (accounts : List Account) (name : String) :
    Except MgitError (List Account) :=
  if !(accounts.any (fun a => a.name == name)) then .error (.keyError name)
  else .ok (accounts.map (fun a => { a with is_default := a.name == name }))

/-! ### Operation sequences over the store -/

/-- One store operation: an `add_account` call (with all its arguments)
or a `set_default` call. -/
inductive Op
  | add (name git_username git_email provider host_alias ssh_key_path : String)
        (signing_key custom_host : Option String) (is_default : Bool)
  | setDefault (name : String)

/-- Run one operation; a raised exception leaves the store unchanged
(both operations validate before mutating). -/
def applyOp (accounts : List Account) : Op → List Account
  | .add n u e p ha kp sk ch d =>
    match add_account accounts n u e p ha kp sk ch d with
    | .ok r => r.2
    | .error _ => accounts
  | .setDefault n =>
    match set_default accounts n with
    | .ok r => r
    | .error _ => accounts

/-- Run a sequence of operations from the empty store. -/
def runOps (ops : List Op) : List Account := ops.foldl applyOp []

/-! ### SSHManager (`src/src/ssh_manager.py`)

The `~/.ssh` directory is modelled by the list of key file names present
in it; the SSH client config file by its text. -/

/-- The static `PROVIDER_HOSTS` table, `custom` mapped to `None`. -/
def PROVIDER_HOSTS : List (String × Option String) :=
  [("github", some "github.com"), ("gitlab", some "gitlab.com"),
   ("bitbucket", some "bitbucket.org"), ("custom", none)]

/-- The `# mgit-managed: <alias>` begin marker of a managed block. -/
def beginMark (host_alias : String) : String := "# mgit-managed: " ++ host_alias

/-- The `# end-mgit: <alias>` end marker of a managed block. -/
def endMark (host_alias : String) : String := "# end-mgit: " ++ host_alias

/-- `SSHManager._build_config_entry`. -/
def buildConfigEntry (host_alias hostname identity_file : String) : String :=
  beginMark host_alias ++ "\n" ++
  "Host " ++ host_alias ++ "\n" ++
  "    HostName " ++ hostname ++ "\n" ++
  "    User git\n" ++
  "    IdentityFile " ++ identity_file ++ "\n" ++
  "    IdentitiesOnly yes\n" ++
  endMark host_alias

/-- The line-level scanner of `SSHManager._remove_config_block`: the
begin marker (as a substring of the line) turns skipping on and drops
the line, the end marker turns it off and drops the line, other lines
are kept unless skipping. -/
def removeLoop (bm em : String) : List String → Bool → List String
  | [], _ => []
  | line :: rest, skip =>
    if strIn bm line then removeLoop bm em rest true
    else if strIn em line then removeLoop bm em rest false
    else if skip then removeLoop bm em rest skip
    else line :: removeLoop bm em rest skip

/-- `SSHManager._remove_config_block`: split on newlines, run the
scanner, join with newlines. -/
def removeConfigBlock (config host_alias : String) : String :=
  String.intercalate "\n"
    (removeLoop (beginMark host_alias) (endMark host_alias) (pySplit config "\n") false)

/-- The line-level scanner of `SSHManager._replace_config_block`:
as `removeLoop`, but the whole new entry is emitted in place of the end
marker line. -/
def replaceLoop (bm em new_entry : String) : List String → Bool → List String
  | [], _ => []
  | line :: rest, skip =>
    if strIn bm line then replaceLoop bm em new_entry rest true
    else if strIn em line then new_entry :: replaceLoop bm em new_entry rest false
    else if skip then replaceLoop bm em new_entry rest skip
    else line :: replaceLoop bm em new_entry rest skip

/-- `SSHManager._replace_config_block`. -/
def replaceConfigBlock (config host_alias new_entry : String) : String :=
  String.intercalate "\n"
    (replaceLoop (beginMark host_alias) (endMark host_alias) new_entry
      (pySplit config "\n") false)

/-- `SSHManager._find_key_for_account`: the first of the
`id_<type>_<name>` candidates, in the fixed type order, present in the
key directory. -/
def findKeyForAccount (keys : List String) (account_name : String) : Option String :=
  ((["ed25519", "rsa", "ecdsa"]).map (fun t => "id_" ++ t ++ "_" ++ account_name)).find?
    (fun f => keys.contains f)

/-- `SSHManager.generate_ssh_key`: deterministic file names; when the
private key file already exists generation is skipped.  Returns the new
key directory contents and the two paths (paths are modelled by file
names, the directory being fixed).  The `email` and `passphrase`
arguments only reach `ssh-keygen` and do not influence the result. -/
def generate_ssh_key (keys : List String) (account_name email key_type passphrase : String) :
    List String × String × String :=
  let key_filename := "id_" ++ key_type ++ "_" ++ account_name
  if keys.contains key_filename then (keys, key_filename, key_filename ++ ".pub")
  else (keys ++ [key_filename], key_filename, key_filename ++ ".pub")

/-- `SSHManager.add_ssh_config_entry`: `ValueError` for `custom`
without a host; the host comes from `PROVIDER_HOSTS.get(provider,
custom_host)`; the alias is `f"<host>-<name>"`; `FileNotFoundError`
when no key file exists; a file already mentioning the alias anywhere
(substring test) is updated via the replace scanner, otherwise the
entry is appended after stripping trailing newlines and a blank line.
Returns the alias and the new config text. -/
def add_ssh_config_entry (account_name provider : String) (custom_host : Option String)
    (found_key_path : Option String) (existing : String) :
    Except MgitError (String × String) :=
  if provider == "custom" && custom_host.isNone then
    .error (.valueError "custom_host is required when provider is 'custom'")
  else
    let actual_host := dictGetD PROVIDER_HOSTS provider custom_host
    let host_alias := pyFStr actual_host ++ "-" ++ account_name
    match found_key_path with
    | none => .error (.fileNotFoundError ("No SSH key for account '" ++ account_name ++ "'"))
    | some key_path =>
      let entry := buildConfigEntry host_alias (pyFStr actual_host) key_path
      let updated :=
        if strIn host_alias existing then replaceConfigBlock existing host_alias entry
        else pyRstripNl existing ++ "\n\n" ++ entry ++ "\n"
      .ok (host_alias, updated)

/-- `SSHManager.remove_ssh_config_entry`: a no-op (with a warning) when
the alias does not occur in the file (substring test), else the remove
scanner runs and the file is rewritten. -/
def remove_ssh_config_entry (existing host_alias : String) : String :=
  if strIn host_alias existing then removeConfigBlock existing host_alias
  else existing

/-! ### GitConfigManager (`src/src/git_config_manager.py`) -/

/-- Python truthiness of an `Optional[str]` (`if destination:`):
both `None` and the empty string are falsy. -/
def pyTruthyOptStr : Option String → Bool
  | some s => !s.isEmpty
  | none => false

/-- `GitConfigManager.clone_with_account`, reduced to its pure content:
the rewritten clone URL (every occurrence of `git@<host>:` replaced by
`git@<alias>:`) and the directory in which `set_local_config` is then
run.  The destination is used only when truthy (`if destination:`), so
a `None` or empty-string destination falls through to the last
`/`-segment of the rewritten URL with every occurrence of `.git`
removed. -/
def clone_with_account (account : Account) (repo_url : String)
    (destination : Option String) : String × String :=
  let actual_host := dictGetD PROVIDER_HOSTS account.provider account.custom_host
  let modified_url :=
    pyReplace repo_url ("git@" ++ pyFStr actual_host ++ ":")
      ("git@" ++ account.host_alias ++ ":")
  let repo_dir :=
    if pyTruthyOptStr destination then destination.getD ""
    else pyReplace ((pySplit modified_url "/").getLastD "") ".git" ""
  (modified_url, repo_dir)

/-! ### ProfileManager (`src/src/profile_manager.py`) -/

/-- The mutable state the `add_profile` workflow touches: the key files
in `~/.ssh`, the SSH config text, and the account store. -/
structure MgitState where
  keys : List String
  sshConfig : String
  accounts : List Account
deriving DecidableEq

/-- `ProfileManager.add_profile`: generate the key, add the SSH config
entry, store the account — strictly in that order, with no rollback: an
exception in a later step leaves the effects of the earlier steps in
place (the returned state records them).  Agent registration, the
optional workspace include and the public-key display touch no state in
this model. -/
def add_profile (st : MgitState) (name git_username git_email : String)
    (provider : String) (custom_host : Option String) (key_type passphrase : String)
    (signing_key : Option String) (is_default : Bool) :
    MgitState × Except MgitError Account :=
  let g := generate_ssh_key st.keys name git_email key_type passphrase
  let keys1 := g.1
  let private_key := g.2.1
  match add_ssh_config_entry name provider custom_host
      (findKeyForAccount keys1 name) st.sshConfig with
  | .error e => ({ st with keys := keys1 }, .error e)
  | .ok (host_alias, newConfig) =>
    match add_account st.accounts name git_username git_email provider host_alias
        private_key signing_key custom_host is_default with
    | .error e => ({ keys := keys1, sshConfig := newConfig, accounts := st.accounts }, .error e)
    | .ok (acct, newStore) =>
      ({ keys := keys1, sshConfig := newConfig, accounts := newStore }, .ok acct)

/-! ### Store persistence (`AccountManager._load`)

The YAML document is modelled by a tree; `yaml.safe_load` raising
`yaml.YAMLError` is modelled by the `.error` case of the parsed input. -/

/-- A parsed YAML document. -/
inductive Yaml
  | nullV
  | strV (s : String)
  | boolV (b : Bool)
  | listV (xs : List Yaml)
  | mapV (kvs : List (String × Yaml))

/-- Python truth test on a loaded YAML value (`data or {}` replaces a
falsy value by the empty dict). -/
def pyFalsy : Yaml → Bool
  | .nullV => true
  | .strV s => s.isEmpty
  | .boolV b => !b
  | .listV xs => xs.isEmpty
  | .mapV kvs => kvs.isEmpty

/-- An `Account` as `_load` builds it from an untyped YAML record: each
`__init__` argument keeps its YAML value (Python performs no type
check). -/
structure AccountY where
  name : Yaml
  git_username : Yaml
  git_email : Yaml
  provider : Yaml
  host_alias : Yaml
  ssh_key_path : Yaml
  signing_key : Yaml := .nullV
  custom_host : Yaml := .nullV
  is_default : Yaml := .boolV false

/-- The required `__init__` parameters (no default value). -/
def accountRequiredParams : List String :=
  ["name", "git_username", "git_email", "provider", "host_alias", "ssh_key_path"]

/-- `Account.from_dict` on an untyped YAML value, i.e. `cls(**info)`:
`TypeError` when `info` is not a mapping, names an unknown parameter, or
misses a required one. -/
def fromDictY : Yaml → Except PyExc AccountY
  | .mapV kvs =>
    if !(kvs.all (fun kv => accountInitParams.contains kv.1)) then .error .typeError
    else if !(accountRequiredParams.all (fun k => kvs.any (fun kv => kv.1 == k))) then
      .error .typeError
    else .ok
      { name := (kvs.lookup "name").getD .nullV
        git_username := (kvs.lookup "git_username").getD .nullV
        git_email := (kvs.lookup "git_email").getD .nullV
        provider := (kvs.lookup "provider").getD .nullV
        host_alias := (kvs.lookup "host_alias").getD .nullV
        ssh_key_path := (kvs.lookup "ssh_key_path").getD .nullV
        signing_key := (kvs.lookup "signing_key").getD .nullV
        custom_host := (kvs.lookup "custom_host").getD .nullV
        is_default := (kvs.lookup "is_default").getD (.boolV false) }
  | _ => .error .typeError

/-- The dict comprehension over `raw_accounts.items()`: the first
failing record aborts with its exception. -/
def loadEntries : List (String × Yaml) → Except PyExc (List (String × AccountY))
  | [] => .ok []
  | kv :: rest => do
    let a ← fromDictY kv.2
    let r ← loadEntries rest
    pure ((kv.1, a) :: r)

/-- `AccountManager._load`: a missing file yields the empty store; a
YAML parse error is caught (warning printed) and yields the empty
store; any other exception — `data.get` on a non-mapping document,
`.items()` on a non-mapping `accounts` entry, `TypeError` from
`cls(**info)` — escapes. -/
def loadStore (file_exists : Bool) (parsed : Except Unit Yaml) :
    Except PyExc (List (String × AccountY)) :=
  if !file_exists then .ok []
  else
    match parsed with
    | .error _ => .ok []
    | .ok v =>
      let data := if pyFalsy v then Yaml.mapV [] else v
      match data with
      | .mapV kvs =>
        match (kvs.lookup "accounts").getD (Yaml.mapV []) with
        | .mapV entries => loadEntries entries
        | _ => .error .attributeError
      | _ => .error .attributeError

end Mgit

deriving instance DecidableEq for Except

namespace Mgit

/-! ### Store invariants and helper lemmas -/

/-- The store invariant maintained by `add_account` and `set_default`:
names are pairwise distinct, and a non-empty store has exactly one
default. -/
def StoreInv (accounts : List Account) : Prop :=
  (accounts.map (fun a => a.name)).Nodup
    ∧ (accounts ≠ [] → accounts.countP (fun a => a.is_default) = 1)

lemma name_not_mem_of_any_false {accounts : List Account} {n : String}
    (h : accounts.any (fun a => a.name == n) = false) :
    n ∉ accounts.map (fun a => a.name) := by
  rw [List.any_eq_false] at h
  intro hmem
  rw [List.mem_map] at hmem
  obtain ⟨a, ha, hname⟩ := hmem
  exact h a ha (by simp [hname])

lemma countP_name_eq_one {accounts : List Account} {n : String}
    (hnd : (accounts.map (fun a => a.name)).Nodup)
    (hmem : accounts.any (fun a => a.name == n) = true) :
    accounts.countP (fun a => a.name == n) = 1 := by
  induction accounts with
  | nil => simp at hmem
  | cons a rest ih =>
    simp only [List.map_cons, List.nodup_cons] at hnd
    rw [List.countP_cons]
    by_cases hn : a.name = n
    · have hzero : rest.countP (fun b => b.name == n) = 0 := by
        rw [List.countP_eq_zero]
        intro b hb hbn
        exact hnd.1 (List.mem_map.mpr ⟨b, hb, by
          have hb2 : b.name = n := by simpa using hbn
          rw [hb2, hn]⟩)
      simp [hzero, hn]
    · have hany : rest.any (fun b => b.name == n) = true := by
        rw [List.any_eq_true] at hmem ⊢
        obtain ⟨b, hb, hbn⟩ := hmem
        rcases List.mem_cons.mp hb with rfl | hb2
        · exact absurd (by simpa using hbn) hn
        · exact ⟨b, hb2, hbn⟩
      simp [ih hnd.2 hany, hn]

lemma map_name_clear (accounts : List Account) :
    ((accounts.map (fun a => { a with is_default := false })).map (fun a => a.name))
      = accounts.map (fun a => a.name) := by
  rw [List.map_map]; rfl

lemma map_name_setflag (accounts : List Account) (n : String) :
    ((accounts.map (fun a => { a with is_default := a.name == n })).map (fun a => a.name))
      = accounts.map (fun a => a.name) := by
  rw [List.map_map]; rfl

lemma countP_clear (accounts : List Account) :
    (accounts.map (fun a => { a with is_default := false })).countP
      (fun a => a.is_default) = 0 := by
  rw [List.countP_map, List.countP_eq_zero]
  intro a _
  simp [Function.comp]

lemma storeInv_add_account {accounts : List Account}
    (hinv : StoreInv accounts)
    (n u e p ha kp : String) (sk ch : Option String) (d : Bool)
    {acct : Account} {out : List Account}
    (h : add_account accounts n u e p ha kp sk ch d = .ok (acct, out)) :
    StoreInv out := by
  unfold add_account at h
  split at h
  · exact absurd h (by simp)
  split at h
  · exact absurd h (by simp)
  split at h
  · exact absurd h (by simp)
  next hname hemail hdup =>
  rw [Bool.not_eq_true] at hdup
  simp only [Except.ok.injEq, Prod.mk.injEq] at h
  obtain ⟨rfl, rfl⟩ := h
  have hnames : ∀ c : Bool, List.map (fun a => a.name)
      (if c = true then accounts.map (fun a => { a with is_default := false }) else accounts)
      = accounts.map (fun a => a.name) := by
    intro c
    split
    · exact map_name_clear accounts
    · rfl
  constructor
  · rw [List.map_append, hnames, List.nodup_append]
    refine ⟨hinv.1, List.nodup_singleton _, ?_⟩
    intro x hx hy
    simp only [List.map_cons, List.map_nil, List.mem_singleton] at hy
    subst hy
    exact name_not_mem_of_any_false hdup hx
  · intro _
    cases hacc : accounts.isEmpty with
    | true =>
      have haccnil : accounts = [] := by rwa [List.isEmpty_iff] at hacc
      subst haccnil
      simp [List.countP_cons]
    | false =>
      have hne : accounts ≠ [] := by
        intro hcon
        rw [hcon] at hacc
        simp at hacc
      simp only [Bool.false_eq_true, if_false]
      by_cases hd : d = true
      · subst hd
        simp [List.countP_append, countP_clear, List.countP_cons]
      · have hone := hinv.2 hne
        simp [List.countP_append, List.countP_cons, hd, hone]

lemma storeInv_set_default {accounts : List Account} (hinv : StoreInv accounts)
    {n : String} {out : List Account}
    (h : set_default accounts n = .ok out) : StoreInv out := by
  unfold set_default at h
  split at h
  · exact absurd h (by simp)
  · next hmem0 =>
    have hmem : accounts.any (fun a => a.name == n) = true := by simpa using hmem0
    simp only [Except.ok.injEq] at h
    subst h
    refine ⟨by rw [map_name_setflag]; exact hinv.1, fun _ => ?_⟩
    rw [List.countP_map]
    have hcomp : ((fun a : Account => a.is_default) ∘ fun a => { a with is_default := a.name == n })
        = fun a : Account => a.name == n := rfl
    rw [hcomp]
    exact countP_name_eq_one hinv.1 hmem

lemma storeInv_applyOp {accounts : List Account} (hinv : StoreInv accounts) (op : Op) :
    StoreInv (applyOp accounts op) := by
  cases op with
  | add n u e p ha kp sk ch d =>
    rcases h : add_account accounts n u e p ha kp sk ch d with e2 | ⟨acct, out⟩
    · simp only [applyOp, h]
      exact hinv
    · simp only [applyOp, h]
      exact storeInv_add_account hinv n u e p ha kp sk ch d h
  | setDefault n =>
    rcases h : set_default accounts n with e2 | out
    · simp only [applyOp, h]
      exact hinv
    · simp only [applyOp, h]
      exact storeInv_set_default hinv h

lemma storeInv_foldl (ops : List Op) :
    ∀ accounts, StoreInv accounts → StoreInv (ops.foldl applyOp accounts) := by
  induction ops with
  | nil => intro accounts h; exact h
  | cons op rest ih =>
    intro accounts h
    rw [List.foldl_cons]
    exact ih _ (storeInv_applyOp h op)

lemma storeInv_runOps (ops : List Op) : StoreInv (runOps ops) :=
  storeInv_foldl ops [] ⟨List.nodup_nil, by simp⟩

/-! ### Claim C3 -/

/-- C3: starting from the empty store, after every finite sequence of
add and set_default operations (a failed call leaves the store
unchanged), a non-empty store has exactly one account with
`is_default = true`. -/
theorem c3_exactly_one_default (ops : List Op) (hne : runOps ops ≠ []) :
    (runOps ops).countP (fun a => a.is_default) = 1 :=
  (storeInv_runOps ops).2 hne

/-- Witness for C3 at a concrete operation sequence: two adds and a
set_default produce a non-empty store with exactly one default. -/
theorem c3_exactly_one_default_witness :
    runOps [.add "a" "u" "a@b.co" "github" "github.com-a" "id_ed25519_a" none none false,
            .add "b" "v" "b@b.co" "github" "github.com-b" "id_ed25519_b" none none true,
            .setDefault "a"] ≠ []
      ∧ (runOps [.add "a" "u" "a@b.co" "github" "github.com-a" "id_ed25519_a" none none false,
            .add "b" "v" "b@b.co" "github" "github.com-b" "id_ed25519_b" none none true,
            .setDefault "a"]).countP (fun a => a.is_default) = 1 :=
  ⟨by decide, c3_exactly_one_default _ (by decide)⟩

/-! ### Claim C7 -/

/-- C7: a valid account added to the empty store is stored with
`is_default = true` whatever the caller-supplied flag, and
`get_default_account` then returns it; in general
`get_default_account` returns the first record with the flag set, else
the first record in iteration order, else `none` on the empty store. -/
theorem c7_first_account_becomes_default (n u e p ha kp : String)
    (sk ch : Option String) (d : Bool)
    (hn : validate_account_name n = true) (he : validate_email e = true) :
    ∃ acct : Account,
      add_account [] n u e p ha kp sk ch d = .ok (acct, [acct])
        ∧ acct.is_default = true ∧ acct.name = n
        ∧ get_default_account [acct] = some acct
        ∧ get_default_account [] = none
        ∧ (∀ (store : List Account) (a : Account),
            store.find? (fun x => x.is_default) = some a →
              get_default_account store = some a)
        ∧ (∀ store : List Account,
            store.find? (fun x => x.is_default) = none →
              get_default_account store = store.head?) := by
  refine ⟨⟨n, u, e, p, ha, kp, sk, ch, true⟩, ?_, rfl, rfl, rfl, rfl, ?_, ?_⟩
  · unfold add_account
    rw [if_neg (by simp [hn]), if_neg (by simp [he])]
    simp
  · intro store a hfind
    unfold get_default_account
    rw [hfind]
  · intro store hfind
    unfold get_default_account
    rw [hfind]

/-- Witness for C7 at a concrete valid account. -/
theorem c7_first_account_becomes_default_witness :
    ∃ acct : Account,
      add_account [] "alice" "au" "alice@example.com" "github" "github.com-alice"
          "id_ed25519_alice" none none false = .ok (acct, [acct])
        ∧ acct.is_default = true ∧ acct.name = "alice"
        ∧ get_default_account [acct] = some acct
        ∧ get_default_account [] = none
        ∧ (∀ (store : List Account) (a : Account),
            store.find? (fun x => x.is_default) = some a →
              get_default_account store = some a)
        ∧ (∀ store : List Account,
            store.find? (fun x => x.is_default) = none →
              get_default_account store = store.head?) :=
  c7_first_account_becomes_default "alice" "au" "alice@example.com" "github"
    "github.com-alice" "id_ed25519_alice" none none false (by decide) (by decide)

/-! ### Claim C9 -/

/-- C9: encoding an account record with `to_dict` and decoding with
`from_dict` yields the identical record, for every field valuation
(including absent optional `signing_key` and `custom_host`). -/
theorem c9_to_dict_from_dict_roundtrip (a : Account) :
    from_dict (to_dict a) = .ok a := by
  obtain ⟨n, u, e, p, ha, kp, sk, ch, d⟩ := a
  cases sk <;> cases ch <;> rfl

/-! ### Claim C10 -/

/-- C10: from every store state with distinct names — including states
where zero or several records carry the default flag — a successful
`set_default n` leaves the flag true on exactly the record named `n`
and false elsewhere. -/
theorem c10_set_default_from_any_flag_state (accounts : List Account) (n : String)
    (hnd : (accounts.map (fun a => a.name)).Nodup)
    (hmem : accounts.any (fun a => a.name == n) = true) :
    ∃ out, set_default accounts n = .ok out
      ∧ out.countP (fun a => a.is_default) = 1
      ∧ ∀ a ∈ out, a.is_default = (a.name == n) := by
  refine ⟨accounts.map (fun a => { a with is_default := a.name == n }), ?_, ?_, ?_⟩
  · unfold set_default
    rw [if_neg (by simp [hmem])]
  · rw [List.countP_map]
    exact countP_name_eq_one hnd hmem
  · intro a hamem
    rw [List.mem_map] at hamem
    obtain ⟨b, hb, rfl⟩ := hamem
    rfl

/-- A store that violates the one-default invariant: both records are
flagged as default (as a hand-edited persisted file could produce). -/
def doubleDefaultStore : List Account :=
  [⟨"a", "u", "a@b.co", "github", "github.com-a", "id_ed25519_a", none, none, true⟩,
   ⟨"b", "v", "b@b.co", "github", "github.com-b", "id_ed25519_b", none, none, true⟩]

/-- Witness for C10: `set_default "b"` repairs the double-default
store. -/
theorem c10_set_default_from_any_flag_state_witness :
    ∃ out, set_default doubleDefaultStore "b" = .ok out
      ∧ out.countP (fun a => a.is_default) = 1
      ∧ ∀ a ∈ out, a.is_default = (a.name == "b") :=
  c10_set_default_from_any_flag_state doubleDefaultStore "b" (by decide) (by decide)

/-! ### Claim C1 -/

/-- C1: the host-alias computation.  For the three table providers the
alias is `<table host>-<name>`, but for `provider = custom` the code
takes `PROVIDER_HOSTS.get("custom", custom_host)`, and since the key
`custom` is present (bound to `None`) the caller-supplied host is
ignored: the alias is `None-<name>`, not `git.example.com-<name>` as
the claim states — contradicting the code's own requirement that
`custom_host` be supplied for this very provider. -/
theorem c1_custom_host_alias_evaluation :
    (add_ssh_config_entry "alice" "custom" (some "git.example.com")
        (some "id_ed25519_alice") "").map Prod.fst = .ok "None-alice"
      ∧ "None-alice" ≠ "git.example.com-alice"
      ∧ (add_ssh_config_entry "alice" "github" none
          (some "id_ed25519_alice") "").map Prod.fst = .ok "github.com-alice"
      ∧ (add_ssh_config_entry "alice" "gitlab" none
          (some "id_ed25519_alice") "").map Prod.fst = .ok "gitlab.com-alice"
      ∧ (add_ssh_config_entry "alice" "bitbucket" none
          (some "id_ed25519_alice") "").map Prod.fst = .ok "bitbucket.org-alice" := by
  decide

/-! ### Claim C6 -/

/-- Counterexample for C6: a malformed persisted document that is valid
YAML but not a mapping (here the list `- "1"`) makes `_load` raise an
uncaught `AttributeError` at `data.get("accounts", {})` instead of
resetting to the empty store — only `yaml.YAMLError` is caught. -/
theorem c6_nonmapping_document_raises :
    loadStore true (.ok (.listV [.strV "1"])) = .error .attributeError
      ∧ loadStore true (.ok (.listV [.strV "1"])) ≠ .ok [] := by
  refine ⟨rfl, ?_⟩
  intro hcon
  rw [show loadStore true (.ok (.listV [.strV "1"])) = .error .attributeError from rfl] at hcon
  exact Except.noConfusion hcon

/-- C6 amended: a document on which the YAML parser itself fails (and
only such a document) degrades to the empty in-memory store without an
escaping exception; a missing file likewise yields the empty store. -/
theorem c6_parse_error_resets_to_empty (parsed : Except Unit Yaml) :
    loadStore true (.error ()) = .ok [] ∧ loadStore false parsed = .ok [] :=
  ⟨rfl, rfl⟩

/-! ### Claim C2 -/

lemma mem_keys_generate (keys : List String) (name email kt pw : String) :
    ("id_" ++ kt ++ "_" ++ name) ∈ (generate_ssh_key keys name email kt pw).1 := by
  by_cases hc : keys.contains ("id_" ++ kt ++ "_" ++ name) = true
  · simp only [generate_ssh_key, hc, if_true]
    simpa using hc
  · simp only [generate_ssh_key, Bool.not_eq_true] at hc ⊢
    rw [hc]
    simp

lemma findKey_isSome_of_mem {keys : List String} {name kt : String}
    (hkt : kt = "ed25519" ∨ kt = "rsa" ∨ kt = "ecdsa")
    (hmem : ("id_" ++ kt ++ "_" ++ name) ∈ keys) :
    (findKeyForAccount keys name).isSome = true := by
  unfold findKeyForAccount
  rw [List.find?_isSome]
  refine ⟨"id_" ++ kt ++ "_" ++ name, ?_, by simpa using hmem⟩
  rcases hkt with rfl | rfl | rfl
  · exact List.mem_map.mpr ⟨"ed25519", by simp, rfl⟩
  · exact List.mem_map.mpr ⟨"rsa", by simp, rfl⟩
  · exact List.mem_map.mpr ⟨"ecdsa", by simp, rfl⟩

lemma add_ssh_config_entry_ok (name provider : String) (ch : Option String)
    (kp : String) (existing : String)
    (hcustom : (provider == "custom" && ch.isNone) = false) :
    ∃ r, add_ssh_config_entry name provider ch (some kp) existing = .ok r := by
  unfold add_ssh_config_entry
  rw [if_neg (by simp [hcustom])]
  exact ⟨_, rfl⟩

/-- Counterexample for C2: `add_profile` on the empty state with the
syntactically invalid email `not-an-email` does raise the validation
`ValueError` and stores no record, but the SSH key file
`id_ed25519_bad` has already been generated by step 1 of the pipeline
(and an SSH config block written by step 2) — refuting the claim that
no SSH key file is created as a side effect. -/
theorem c2_key_created_despite_invalid_email :
    (add_profile ⟨[], "", []⟩ "bad" "Bad" "not-an-email" "github" none
        "ed25519" "" none false).2
      = .error (.valueError "Invalid email address: not-an-email")
      ∧ (add_profile ⟨[], "", []⟩ "bad" "Bad" "not-an-email" "github" none
          "ed25519" "" none false).1.accounts = []
      ∧ (add_profile ⟨[], "", []⟩ "bad" "Bad" "not-an-email" "github" none
          "ed25519" "" none false).1.keys = ["id_ed25519_bad"] := by
  decide

/-- C2 amended: on an invalid email (valid name, a key type the lookup
order covers, and a provider/custom-host combination that passes the
SSH-entry validation) the add-profile workflow raises the validation
`ValueError` and adds no account record, but the SSH key file for the
profile is present afterwards — created by the earlier pipeline step
and not rolled back. -/
theorem c2_invalid_email_no_record_but_key (st : MgitState)
    (name u email provider : String) (ch sk : Option String) (kt pw : String) (d : Bool)
    (hkt : kt = "ed25519" ∨ kt = "rsa" ∨ kt = "ecdsa")
    (hcustom : (provider == "custom" && ch.isNone) = false)
    (hname : validate_account_name name = true)
    (hemail : validate_email email = false) :
    (add_profile st name u email provider ch kt pw sk d).2
        = .error (.valueError ("Invalid email address: " ++ email))
      ∧ (add_profile st name u email provider ch kt pw sk d).1.accounts = st.accounts
      ∧ ("id_" ++ kt ++ "_" ++ name) ∈ (add_profile st name u email provider ch kt pw sk d).1.keys := by
  have hkey := mem_keys_generate st.keys name email kt pw
  have hsome := findKey_isSome_of_mem hkt hkey
  obtain ⟨kpath, hkpath⟩ := Option.isSome_iff_exists.mp hsome
  obtain ⟨r, hssh⟩ := add_ssh_config_entry_ok name provider ch kpath st.sshConfig hcustom
  have haa : add_account st.accounts name u email provider r.1
      (generate_ssh_key st.keys name email kt pw).2.1 sk ch d
      = .error (.valueError ("Invalid email address: " ++ email)) := by
    unfold add_account
    rw [if_neg (by simp [hname]), if_pos (by simp [hemail])]
  simp only [add_profile, hkpath, hssh, haa]
  simp [hkey]

/-- Witness for C2's amended statement at a concrete invocation. -/
theorem c2_invalid_email_no_record_but_key_witness :
    (add_profile ⟨["id_rsa_other"], "# cfg", []⟩ "bob" "Bob" "bob-at-nowhere"
        "gitlab" none "rsa" "" none true).2
      = .error (.valueError ("Invalid email address: " ++ "bob-at-nowhere"))
      ∧ (add_profile ⟨["id_rsa_other"], "# cfg", []⟩ "bob" "Bob" "bob-at-nowhere"
          "gitlab" none "rsa" "" none true).1.accounts = []
      ∧ ("id_" ++ "rsa" ++ "_" ++ "bob")
        ∈ (add_profile ⟨["id_rsa_other"], "# cfg", []⟩ "bob" "Bob" "bob-at-nowhere"
            "gitlab" none "rsa" "" none true).1.keys := by
  have h := c2_invalid_email_no_record_but_key ⟨["id_rsa_other"], "# cfg", []⟩
    "bob" "Bob" "bob-at-nowhere" "gitlab" none none "rsa" "" true
    (by simp) (by decide) (by decide) (by decide)
  exact h

/-! ### Substring and scanner lemmas -/

lemma isPrefixOf_self (l : List Char) : l.isPrefixOf l = true := by
  induction l with
  | nil => rfl
  | cons c rest ih => simp [List.isPrefixOf, ih]

lemma strIn_self (s : String) : strIn s s = true := by
  unfold strIn
  cases h : s.data with
  | nil => simp [containsList, h, List.isEmpty]
  | cons c rest => simp [containsList, isPrefixOf_self]

lemma strIn_false_ne {p l : String} (h : strIn p l = false) : l ≠ p := by
  intro hcon
  rw [hcon, strIn_self] at h
  exact Bool.noConfusion h

lemma removeLoop_keep (bm em : String) (L R : List String)
    (h : ∀ l ∈ L, strIn bm l = false ∧ strIn em l = false) :
    removeLoop bm em (L ++ R) false = L ++ removeLoop bm em R false := by
  induction L with
  | nil => rfl
  | cons l L ih =>
    have hl := h l (by simp)
    simp only [List.cons_append, removeLoop, hl.1, hl.2, Bool.false_eq_true, if_false]
    exact congrArg (fun t => l :: t) (ih (fun x hx => h x (by simp [hx])))

lemma removeLoop_drop_mid (bm em : String) (M R : List String)
    (h : ∀ l ∈ M, strIn em l = false) :
    removeLoop bm em (M ++ R) true = removeLoop bm em R true := by
  induction M with
  | nil => rfl
  | cons l M ih =>
    have hl := h l (by simp)
    by_cases hb : strIn bm l = true
    · simp only [List.cons_append, removeLoop, hb, if_true]
      exact ih (fun x hx => h x (by simp [hx]))
    · rw [Bool.not_eq_true] at hb
      simp only [List.cons_append, removeLoop, hb, hl, Bool.false_eq_true, if_false, if_true]
      exact ih (fun x hx => h x (by simp [hx]))

lemma removeLoop_block (bm em : String) (pre mid post : List String)
    (hpre : ∀ l ∈ pre, strIn bm l = false ∧ strIn em l = false)
    (hmid : ∀ l ∈ mid, strIn em l = false)
    (hpost : ∀ l ∈ post, strIn bm l = false ∧ strIn em l = false)
    (hbe : strIn bm em = false) :
    removeLoop bm em (pre ++ bm :: (mid ++ em :: post)) false = pre ++ post := by
  rw [removeLoop_keep bm em pre _ hpre]
  have h1 : removeLoop bm em (bm :: (mid ++ em :: post)) false
      = removeLoop bm em (mid ++ em :: post) true := by
    simp only [removeLoop, strIn_self, if_true]
  rw [h1, removeLoop_drop_mid bm em mid _ hmid]
  have h2 : removeLoop bm em (em :: post) true = removeLoop bm em post false := by
    simp only [removeLoop, hbe, strIn_self, Bool.false_eq_true, if_false, if_true]
  rw [h2]
  have h3 : removeLoop bm em (post ++ []) false = post ++ removeLoop bm em [] false :=
    removeLoop_keep bm em post [] hpost
  rw [List.append_nil] at h3
  rw [h3]
  simp [removeLoop]

/-! ### Claim C4 -/

/-- C4 amended: removing an host_alias whose marker-delimited block is
present leaves the config as exactly the lines outside the block,
byte-identical and marker-free — provided no other line of the file
contains this host_alias's begin/end markers as substrings (the scanner
matches markers by substring, so e.g. an host_alias extending the removed
one by a suffix would be caught too). -/
theorem c4_remove_entry_frame (config host_alias : String) (pre mid post : List String)
    (h0 : strIn host_alias config = true)
    (hsplit : pySplit config "\n"
      = pre ++ beginMark host_alias :: (mid ++ endMark host_alias :: post))
    (hpre : ∀ l ∈ pre, strIn (beginMark host_alias) l = false ∧ strIn (endMark host_alias) l = false)
    (hmid : ∀ l ∈ mid, strIn (endMark host_alias) l = false)
    (hpost : ∀ l ∈ post, strIn (beginMark host_alias) l = false ∧ strIn (endMark host_alias) l = false)
    (hbe : strIn (beginMark host_alias) (endMark host_alias) = false) :
    remove_ssh_config_entry config host_alias = String.intercalate "\n" (pre ++ post)
      ∧ ∀ l ∈ pre ++ post,
          strIn (beginMark host_alias) l = false ∧ strIn (endMark host_alias) l = false := by
  constructor
  · unfold remove_ssh_config_entry
    rw [if_pos h0]
    unfold removeConfigBlock
    rw [hsplit, removeLoop_block _ _ pre mid post hpre hmid hpost hbe]
  · intro l hl
    rcases List.mem_append.mp hl with hmem | hmem
    · exact hpre l hmem
    · exact hpost l hmem

/-- The frame-condition witness config: managed blocks for the two
unrelated aliases `github.com-alice` and `gitlab.com-bob`. -/
def c4wCfg : String :=
  buildConfigEntry "github.com-alice" "github.com" "id_ed25519_alice" ++ "\n\n"
    ++ buildConfigEntry "gitlab.com-bob" "gitlab.com" "id_ed25519_bob" ++ "\n"

/-- The lines of `c4wCfg` before bob's block (alice's block plus the
separating blank line). -/
def c4wPre : List String :=
  [beginMark "github.com-alice", "Host github.com-alice", "    HostName github.com",
   "    User git", "    IdentityFile id_ed25519_alice", "    IdentitiesOnly yes",
   endMark "github.com-alice", ""]

/-- The interior lines of bob's block in `c4wCfg`. -/
def c4wMid : List String :=
  ["Host gitlab.com-bob", "    HostName gitlab.com", "    User git",
   "    IdentityFile id_ed25519_bob", "    IdentitiesOnly yes"]

/-- Witness for C4's amended statement: removing bob's block leaves
alice's block (and the trailing blank line) byte-identical and no
marker lines for bob. -/
theorem c4_remove_entry_frame_witness :
    remove_ssh_config_entry c4wCfg "gitlab.com-bob"
        = String.intercalate "\n" (c4wPre ++ [""])
      ∧ ∀ l ∈ c4wPre ++ [""],
          strIn (beginMark "gitlab.com-bob") l = false
            ∧ strIn (endMark "gitlab.com-bob") l = false :=
  c4_remove_entry_frame c4wCfg "gitlab.com-bob" c4wPre c4wMid [""]
    (by decide) (by decide) (by decide) (by decide) (by decide) (by decide)

/-- Counterexample for C4 as stated: with blocks for the two distinct
aliases `github.com-al` (account `al`) and `github.com-alice` (account
`alice`), removing `github.com-al` also deletes alice's whole block,
because the scanner matches markers by substring and
`# mgit-managed: github.com-al` is a substring of
`# mgit-managed: github.com-alice`. -/
theorem c4_counterexample_prefix_alias :
    strIn (beginMark "github.com-alice")
        (buildConfigEntry "github.com-al" "github.com" "id_ed25519_al" ++ "\n\n"
          ++ buildConfigEntry "github.com-alice" "github.com" "id_ed25519_alice" ++ "\n")
      = true
      ∧ remove_ssh_config_entry
          (buildConfigEntry "github.com-al" "github.com" "id_ed25519_al" ++ "\n\n"
            ++ buildConfigEntry "github.com-alice" "github.com" "id_ed25519_alice" ++ "\n")
          "github.com-al" = "\n"
      ∧ strIn (beginMark "github.com-alice") "\n" = false := by
  decide


/-! ### Replace-scanner lemmas and the entry's line structure -/

/-- The seven lines of a managed config block. -/
def entryLines (host_alias hostname identity_file : String) : List String :=
  [beginMark host_alias, "Host " ++ host_alias, "    HostName " ++ hostname,
   "    User git", "    IdentityFile " ++ identity_file, "    IdentitiesOnly yes",
   endMark host_alias]

/-- The built entry is exactly its seven lines joined by newlines. -/
lemma buildConfigEntry_lines (host_alias hostname identity_file : String) :
    buildConfigEntry host_alias hostname identity_file
      = String.intercalate "\n" (entryLines host_alias hostname identity_file) := by
  have h : String.intercalate "\n" (entryLines host_alias hostname identity_file)
      = beginMark host_alias ++ "\n" ++ ("Host " ++ host_alias) ++ "\n"
        ++ ("    HostName " ++ hostname) ++ "\n" ++ "    User git" ++ "\n"
        ++ ("    IdentityFile " ++ identity_file) ++ "\n" ++ "    IdentitiesOnly yes"
        ++ "\n" ++ endMark host_alias := rfl
  rw [h]
  unfold buildConfigEntry beginMark endMark
  apply String.ext
  simp [String.data_append]

lemma replaceLoop_keep (bm em ne2 : String) (L R : List String)
    (h : ∀ l ∈ L, strIn bm l = false ∧ strIn em l = false) :
    replaceLoop bm em ne2 (L ++ R) false = L ++ replaceLoop bm em ne2 R false := by
  induction L with
  | nil => rfl
  | cons l L ih =>
    have hl := h l (by simp)
    simp only [List.cons_append, replaceLoop, hl.1, hl.2, Bool.false_eq_true, if_false]
    exact congrArg (fun t => l :: t) (ih (fun x hx => h x (by simp [hx])))

lemma replaceLoop_drop_mid (bm em ne2 : String) (M R : List String)
    (h : ∀ l ∈ M, strIn em l = false) :
    replaceLoop bm em ne2 (M ++ R) true = replaceLoop bm em ne2 R true := by
  induction M with
  | nil => rfl
  | cons l M ih =>
    have hl := h l (by simp)
    by_cases hb : strIn bm l = true
    · simp only [List.cons_append, replaceLoop, hb, if_true]
      exact ih (fun x hx => h x (by simp [hx]))
    · rw [Bool.not_eq_true] at hb
      simp only [List.cons_append, replaceLoop, hb, hl, Bool.false_eq_true, if_false, if_true]
      exact ih (fun x hx => h x (by simp [hx]))

lemma replaceLoop_block (bm em ne2 : String) (pre mid post : List String)
    (hpre : ∀ l ∈ pre, strIn bm l = false ∧ strIn em l = false)
    (hmid : ∀ l ∈ mid, strIn em l = false)
    (hpost : ∀ l ∈ post, strIn bm l = false ∧ strIn em l = false)
    (hbe : strIn bm em = false) :
    replaceLoop bm em ne2 (pre ++ bm :: (mid ++ em :: post)) false = pre ++ ne2 :: post := by
  rw [replaceLoop_keep bm em ne2 pre _ hpre]
  have h1 : replaceLoop bm em ne2 (bm :: (mid ++ em :: post)) false
      = replaceLoop bm em ne2 (mid ++ em :: post) true := by
    simp only [replaceLoop, strIn_self, if_true]
  rw [h1, replaceLoop_drop_mid bm em ne2 mid _ hmid]
  have h2 : replaceLoop bm em ne2 (em :: post) true
      = ne2 :: replaceLoop bm em ne2 post false := by
    simp only [replaceLoop, hbe, strIn_self, Bool.false_eq_true, if_false, if_true]
  rw [h2]
  have h3 : replaceLoop bm em ne2 (post ++ []) false
      = post ++ replaceLoop bm em ne2 [] false := replaceLoop_keep bm em ne2 post [] hpost
  rw [List.append_nil] at h3
  rw [h3]
  simp [replaceLoop]

/-! ### String disequality helpers for marker-line counting -/

lemma ne_of_headChar {s t : String} {cs ct : Char} (hs : s.data.head? = some cs)
    (ht : t.data.head? = some ct) (hne : cs ≠ ct) : s ≠ t := by
  intro hcon
  rw [hcon, ht] at hs
  exact hne (Option.some.inj hs).symm

lemma append_ne_append_of_length {p q : String} (x : String)
    (h : p.length ≠ q.length) : p ++ x ≠ q ++ x := by
  intro hcon
  have h2 := congrArg String.length hcon
  simp only [String.length_append] at h2
  exact h (by omega)


/-! ### Claim C5 -/

/-- C5 amended: when a marker-delimited block for the computed alias is
present (and no other line contains the alias's markers as substrings),
calling `add_ssh_config_entry` again with a different key path replaces
the block in place — the surrounding lines are untouched, and among the
resulting lines exactly one equals the begin marker and one the end
marker, with the `IdentityFile` line holding the new path.  A new block
is appended (after stripping trailing newlines, separated by a blank
line) only when the alias occurs nowhere in the file as a substring —
not merely when no marker pair exists. -/
theorem c5_add_entry_replaces_in_place
    (name provider : String) (custom_host : Option String)
    (kp config host_alias host : String) (pre mid post : List String)
    (hvalid : (provider == "custom" && custom_host.isNone) = false)
    (hhost : pyFStr (dictGetD PROVIDER_HOSTS provider custom_host) = host)
    (halias : host ++ "-" ++ name = host_alias)
    (h0 : strIn host_alias config = true)
    (hsplit : pySplit config "\n"
      = pre ++ beginMark host_alias :: (mid ++ endMark host_alias :: post))
    (hpre : ∀ l ∈ pre, strIn (beginMark host_alias) l = false
      ∧ strIn (endMark host_alias) l = false)
    (hmid : ∀ l ∈ mid, strIn (endMark host_alias) l = false)
    (hpost : ∀ l ∈ post, strIn (beginMark host_alias) l = false
      ∧ strIn (endMark host_alias) l = false)
    (hbe : strIn (beginMark host_alias) (endMark host_alias) = false) :
    add_ssh_config_entry name provider custom_host (some kp) config
        = .ok (host_alias,
            String.intercalate "\n" (pre ++ buildConfigEntry host_alias host kp :: post))
      ∧ buildConfigEntry host_alias host kp
          = String.intercalate "\n" (entryLines host_alias host kp)
      ∧ (pre ++ entryLines host_alias host kp ++ post).countP
          (fun l => l == beginMark host_alias) = 1
      ∧ (pre ++ entryLines host_alias host kp ++ post).countP
          (fun l => l == endMark host_alias) = 1
      ∧ ("    IdentityFile " ++ kp) ∈ entryLines host_alias host kp
      ∧ (∀ cfg2, strIn host_alias cfg2 = false →
          add_ssh_config_entry name provider custom_host (some kp) cfg2
            = .ok (host_alias,
                pyRstripNl cfg2 ++ "\n\n" ++ buildConfigEntry host_alias host kp ++ "\n")) := by
  have hBhead : (beginMark host_alias).data.head? = some '#' := by
    rw [show beginMark host_alias = "# mgit-managed: " ++ host_alias from rfl,
      String.data_append]
    rfl
  have hEhead : (endMark host_alias).data.head? = some '#' := by
    rw [show endMark host_alias = "# end-mgit: " ++ host_alias from rfl, String.data_append]
    rfl
  have hHost : ("Host " ++ host_alias).data.head? = some 'H' := by
    rw [String.data_append]; rfl
  have hHN : ("    HostName " ++ host).data.head? = some ' ' := by
    rw [String.data_append]; rfl
  have hUG : ("    User git" : String).data.head? = some ' ' := rfl
  have hIF : ("    IdentityFile " ++ kp).data.head? = some ' ' := by
    rw [String.data_append]; rfl
  have hIO : ("    IdentitiesOnly yes" : String).data.head? = some ' ' := rfl
  have e1 : (("Host " ++ host_alias) == beginMark host_alias) = false :=
    beq_eq_false_iff_ne.mpr (ne_of_headChar hHost hBhead (by decide))
  have e2 : (("    HostName " ++ host) == beginMark host_alias) = false :=
    beq_eq_false_iff_ne.mpr (ne_of_headChar hHN hBhead (by decide))
  have e3 : (("    User git" : String) == beginMark host_alias) = false :=
    beq_eq_false_iff_ne.mpr (ne_of_headChar hUG hBhead (by decide))
  have e4 : (("    IdentityFile " ++ kp) == beginMark host_alias) = false :=
    beq_eq_false_iff_ne.mpr (ne_of_headChar hIF hBhead (by decide))
  have e5 : (("    IdentitiesOnly yes" : String) == beginMark host_alias) = false :=
    beq_eq_false_iff_ne.mpr (ne_of_headChar hIO hBhead (by decide))
  have e6 : (endMark host_alias == beginMark host_alias) = false := by
    refine beq_eq_false_iff_ne.mpr ?_
    rw [show endMark host_alias = "# end-mgit: " ++ host_alias from rfl,
      show beginMark host_alias = "# mgit-managed: " ++ host_alias from rfl]
    exact append_ne_append_of_length host_alias (by decide)
  have f1 : (("Host " ++ host_alias) == endMark host_alias) = false :=
    beq_eq_false_iff_ne.mpr (ne_of_headChar hHost hEhead (by decide))
  have f2 : (("    HostName " ++ host) == endMark host_alias) = false :=
    beq_eq_false_iff_ne.mpr (ne_of_headChar hHN hEhead (by decide))
  have f3 : (("    User git" : String) == endMark host_alias) = false :=
    beq_eq_false_iff_ne.mpr (ne_of_headChar hUG hEhead (by decide))
  have f4 : (("    IdentityFile " ++ kp) == endMark host_alias) = false :=
    beq_eq_false_iff_ne.mpr (ne_of_headChar hIF hEhead (by decide))
  have f5 : (("    IdentitiesOnly yes" : String) == endMark host_alias) = false :=
    beq_eq_false_iff_ne.mpr (ne_of_headChar hIO hEhead (by decide))
  have f6 : (beginMark host_alias == endMark host_alias) = false := by
    refine beq_eq_false_iff_ne.mpr ?_
    rw [show endMark host_alias = "# end-mgit: " ++ host_alias from rfl,
      show beginMark host_alias = "# mgit-managed: " ++ host_alias from rfl]
    exact append_ne_append_of_length host_alias (by decide)
  have hpre0 : ∀ marker : String, (∀ l ∈ pre, strIn marker l = false) →
      pre.countP (fun l => l == marker) = 0 := by
    intro marker hm
    rw [List.countP_eq_zero]
    intro l hl hcon
    exact strIn_false_ne (hm l hl) (by simpa using hcon)
  have hpost0 : ∀ marker : String, (∀ l ∈ post, strIn marker l = false) →
      post.countP (fun l => l == marker) = 0 := by
    intro marker hm
    rw [List.countP_eq_zero]
    intro l hl hcon
    exact strIn_false_ne (hm l hl) (by simpa using hcon)
  refine ⟨?_, buildConfigEntry_lines host_alias host kp, ?_, ?_, by simp [entryLines], ?_⟩
  · simp only [add_ssh_config_entry, hvalid, Bool.false_eq_true, if_false]
    rw [hhost, halias, if_pos h0]
    unfold replaceConfigBlock
    rw [hsplit, replaceLoop_block _ _ _ pre mid post hpre hmid hpost hbe]
  · rw [List.countP_append, List.countP_append,
      hpre0 _ (fun l hl => (hpre l hl).1), hpost0 _ (fun l hl => (hpost l hl).1)]
    simp [entryLines, List.countP_cons, e1, e2, e3, e4, e5, e6]
  · rw [List.countP_append, List.countP_append,
      hpre0 _ (fun l hl => (hpre l hl).2), hpost0 _ (fun l hl => (hpost l hl).2)]
    simp [entryLines, List.countP_cons, f1, f2, f3, f4, f5, f6]
  · intro cfg2 hni
    simp only [add_ssh_config_entry, hvalid, Bool.false_eq_true, if_false]
    rw [hhost, halias, hni]
    simp


/-- Counterexample for C5 as stated: in a config that mentions the
alias without any marker pair (a hand-written `Host github.com-alice`
line), no block exists, yet nothing is appended — presence is detected
by a substring test on the alias, the replace scanner finds no markers,
and the file is left unchanged with still no managed block. -/
theorem c5_counterexample_no_append :
    add_ssh_config_entry "alice" "github" none (some "id_ed25519_alice")
        "Host github.com-alice\n"
      = .ok ("github.com-alice", "Host github.com-alice\n")
      ∧ strIn (beginMark "github.com-alice") "Host github.com-alice\n" = false := by
  decide

/-- A config holding one managed block for `github.com-alice` with the
old key path. -/
def c5wCfg : String :=
  buildConfigEntry "github.com-alice" "github.com" "id_ed25519_alice_old"

/-- The interior lines of the existing block in `c5wCfg`. -/
def c5wMid : List String :=
  ["Host github.com-alice", "    HostName github.com", "    User git",
   "    IdentityFile id_ed25519_alice_old", "    IdentitiesOnly yes"]

/-- Witness for C5's amended statement: re-adding alice's entry with a
new key path replaces the block in place. -/
theorem c5_add_entry_replaces_in_place_witness :
    add_ssh_config_entry "alice" "github" none (some "id_rsa_alice_new") c5wCfg
        = .ok ("github.com-alice",
            String.intercalate "\n"
              ([] ++ buildConfigEntry "github.com-alice" "github.com" "id_rsa_alice_new" :: []))
      ∧ buildConfigEntry "github.com-alice" "github.com" "id_rsa_alice_new"
          = String.intercalate "\n" (entryLines "github.com-alice" "github.com" "id_rsa_alice_new")
      ∧ ([] ++ entryLines "github.com-alice" "github.com" "id_rsa_alice_new" ++ []).countP
          (fun l => l == beginMark "github.com-alice") = 1
      ∧ ([] ++ entryLines "github.com-alice" "github.com" "id_rsa_alice_new" ++ []).countP
          (fun l => l == endMark "github.com-alice") = 1
      ∧ ("    IdentityFile " ++ "id_rsa_alice_new")
          ∈ entryLines "github.com-alice" "github.com" "id_rsa_alice_new"
      ∧ (∀ cfg2, strIn "github.com-alice" cfg2 = false →
          add_ssh_config_entry "alice" "github" none (some "id_rsa_alice_new") cfg2
            = .ok ("github.com-alice",
                pyRstripNl cfg2 ++ "\n\n"
                  ++ buildConfigEntry "github.com-alice" "github.com" "id_rsa_alice_new" ++ "\n")) :=
  c5_add_entry_replaces_in_place "alice" "github" none "id_rsa_alice_new" c5wCfg
    "github.com-alice" "github.com" [] c5wMid []
    (by decide) (by decide) (by decide) (by decide) (by decide)
    (by decide) (by decide) (by decide) (by decide)


/-! ### Claim C8 -/

lemma pyReplace_two_pieces {s pat : String} {a b : String}
    (h : pySplit s pat = [a, b]) (new : String) :
    pyReplace s pat new = a ++ new ++ b := by
  unfold pySplit at h
  unfold pyReplace
  rw [h]
  rfl

/-- A github account used in clone examples. -/
def acctWork : Account :=
  ⟨"work", "w", "w@example.com", "github", "github.com-work", "id_ed25519_work",
   none, none, true⟩

/-- Counterexample for C8 as stated: cloning
`git@github.com:user/my.github.io.git` (no destination) derives the
local directory `myhub.io` — `.replace(".git", "")` removes **every**
occurrence of `.git` in the trailing segment, not only a trailing
suffix, which would give `my.github.io`. -/
theorem c8_counterexample_dotgit_everywhere :
    clone_with_account acctWork "git@github.com:user/my.github.io.git" none
        = ("git@github.com-work:user/my.github.io.git", "myhub.io")
      ∧ ("myhub.io" : String) ≠ "my.github.io" := by
  decide

/-- C8 amended: `clone_with_account` replaces every occurrence of
`git@<host>:` in the URL by `git@<alias>:` (when the URL starts with it
and contains it once, this is the prefix rewrite); the local directory
is the destination when given and truthy (a `None` or empty-string
destination is ignored, `if destination:`), else the last `/`-segment
of the rewritten URL with every occurrence of `.git` removed — which
equals stripping the trailing `.git` suffix exactly when `.git` occurs
in the segment only as that suffix; local identity config is then
applied in that directory. -/
theorem c8_clone_url_rewrite_and_dir (account : Account)
    (url host rest seg stem dd : String) (segs : List String)
    (hhost : pyFStr (dictGetD PROVIDER_HOSTS account.provider account.custom_host) = host) :
    (dd.isEmpty = false → (clone_with_account account url (some dd)).2 = dd)
      ∧ (clone_with_account account url (some "")).2
          = (clone_with_account account url none).2
      ∧ (pySplit url ("git@" ++ host ++ ":") = ["", rest] →
          (clone_with_account account url none).1
            = "git@" ++ account.host_alias ++ ":" ++ rest)
      ∧ (pySplit ((clone_with_account account url none).1) "/" = segs ++ [seg] →
          pySplit seg ".git" = [stem, ""] →
          (clone_with_account account url none).2 = stem) := by
  refine ⟨?_, rfl, ?_, ?_⟩
  · intro hdd
    simp [clone_with_account, pyTruthyOptStr, hdd]
  · intro hurl
    simp only [clone_with_account]
    rw [hhost, pyReplace_two_pieces hurl]
    apply String.ext
    simp [String.data_append]
  · intro hseg hdot
    simp only [clone_with_account, pyTruthyOptStr, Bool.false_eq_true, if_false] at hseg ⊢
    rw [hhost] at hseg ⊢
    rw [hseg, List.getLastD_concat, pyReplace_two_pieces hdot]
    simp [String.append_empty]

/-- Witness for C8's amended statement on a concrete github clone:
a non-empty destination is used as given, an empty destination falls
through to the URL-derived directory. -/
theorem c8_clone_url_rewrite_and_dir_witness :
    (clone_with_account acctWork "git@github.com:team/proj.git" (some "dest")).2 = "dest"
      ∧ (clone_with_account acctWork "git@github.com:team/proj.git" (some "")).2
          = (clone_with_account acctWork "git@github.com:team/proj.git" none).2
      ∧ (clone_with_account acctWork "git@github.com:team/proj.git" none).1
          = "git@" ++ acctWork.host_alias ++ ":" ++ "team/proj.git"
      ∧ (clone_with_account acctWork "git@github.com:team/proj.git" none).2 = "proj" := by
  have h := c8_clone_url_rewrite_and_dir acctWork "git@github.com:team/proj.git"
    "github.com" "team/proj.git" "proj.git" "proj" "dest"
    ["git@github.com-work:team"] (by decide)
  exact ⟨h.1 (by decide), h.2.1, h.2.2.1 (by decide), h.2.2.2 (by decide) (by decide)⟩

end Mgit
